import Mathlib

/-!
Verification development for the asynchronous HTTP/1.1 client in
`src/http_client.h` (class `URLLoaderImpl::HTTPClient`).

The embedding models the client's pure computations directly (request
serialization, header-field parsing) and its callback-driven state machine as
explicit functions from an environment (the outcomes of the asynchronous
operations: resolve, connect, handshake, write, the bytes each read delivers,
and the sink's reaction to each write) to the sequence of collaborator
callbacks the client emits (`SendResponse` / `SendError`, plus the recorded
redirect target).

Byte/character data is modelled as `List Char`; machine status codes
(`mx_status_t` values) are modelled symbolically by the inductive `MxStatus`,
and asio error codes relevant to the code's branches by `ReadErr`.
-/

namespace HttpClient

/-- CRLF line terminator, written as `"\r\n"` throughout the source. -/
def crlf : List Char := ['\r', '\n']

/-- fxl::ToLowerASCII: map an ASCII upper-case letter to lower case. -/
def toLowerASCII (c : Char) : Char :=
  if 'A' ≤ c ∧ c ≤ 'Z' then Char.ofNat (c.toNat + 32) else c

/-- fxl::EqualsCaseInsensitiveASCII on character lists. -/
def eqCI (a b : List Char) : Bool :=
  decide (a.map toLowerASCII = b.map toLowerASCII)

/-- Symbolic model of the `mx_status_t` values the client produces or
distinguishes. `errNoMemory` stands for the status `mx::vmo::create` returns
when the destination buffer cannot be allocated. -/
inductive MxStatus where
  | ok
  | errInvalidArgs
  | errShouldWait
  | errPeerClosed
  | errNoMemory
  | other (n : Int)
deriving DecidableEq, Repr

/-- `ALLOWED_METHODS` from the source: the exact, case-sensitive set literal. -/
def ALLOWED_METHODS : List (List Char) :=
  ["GET".data, "HEAD".data, "POST".data, "PUT".data, "DELETE".data,
   "TRACE".data, "CONNECT".data, "PATCH".data]

/-- `IsMethodAllowed`: membership in `ALLOWED_METHODS`. -/
def IsMethodAllowed (method : List Char) : Bool :=
  decide (method ∈ ALLOWED_METHODS)

/-- One `it->first << ": " << it->second << "\r\n"` line of the extra-header
loop in `CreateRequest`. -/
def renderHeaderLine (kv : List Char × List Char) : List Char :=
  kv.1 ++ ": ".data ++ kv.2 ++ crlf

/-- The `has_accept` flag computed by the extra-header loop in
`CreateRequest`: true iff some key equals "accept" case-insensitively. -/
def hasAcceptHeader (extra : List (List Char × List Char)) : Bool :=
  extra.any (fun kv => eqCI kv.1 "accept".data)

/-- The `Content-Length` header line emitted when the body is non-empty. -/
def contentLengthLine (n : Nat) : List Char :=
  "Content-Length: ".data ++ (toString n).data ++ crlf

/-- The serialized request-header block of `CreateRequest`, as the list of
`<<`-streamed lines in source order: request line, Host, Connection: close,
each extra header, the synthesized `Accept: */*` when no case-insensitive
Accept key was supplied, a `Content-Length` line when the body is non-empty,
then the blank-line terminator. -/
def requestHeaderLines (server path method : List Char)
    (extra : List (List Char × List Char)) (bodyLen : Nat) :
    List (List Char) :=
  [method ++ " ".data ++ path ++ " HTTP/1.1".data ++ crlf,
   "Host: ".data ++ server ++ crlf,
   "Connection: close".data ++ crlf]
  ++ extra.map renderHeaderLine
  ++ (if hasAcceptHeader extra then [] else ["Accept: */*".data ++ crlf])
  ++ (if bodyLen > 0 then [contentLengthLine bodyLen] else [])
  ++ [crlf]

/-- The element-reader loop of `CreateRequest`: each reader's `ReadAll` either
appends its bytes to the body stream (`MxStatus.ok`) or makes `CreateRequest`
return its failure status at once. A reader is modelled by the pair of the
status it returns and the bytes it writes when successful. -/
def runReaders : List (MxStatus × List Char) → Except MxStatus (List Char)
  | [] => .ok []
  | (st, bs) :: rs =>
    if st = .ok then
      match runReaders rs with
      | .error e => .error e
      | .ok rest => .ok (bs ++ rest)
    else .error st

/-- The two buffers `CreateRequest` leaves in `request_header_buf_` /
`request_body_buf_` on success. -/
structure SerializedRequest where
  headerBytes : List Char
  bodyBytes : List Char
deriving DecidableEq, Repr

/-- `CreateRequest`: rejects a method outside `ALLOWED_METHODS` with
`MX_ERR_INVALID_ARGS` before doing anything else (no I/O is performed
anywhere in `CreateRequest`); otherwise serializes the header block and
drains the element readers into the body buffer, propagating the first
reader failure. -/
def CreateRequest (server path method : List Char)
    (extra : List (List Char × List Char))
    (readers : List (MxStatus × List Char)) :
    MxStatus × Option SerializedRequest :=
  if ¬ IsMethodAllowed method then (.errInvalidArgs, none)
  else
    match runReaders readers with
    | .error e => (e, none)
    | .ok body =>
      (.ok,
       some ⟨(requestHeaderLines server path method extra body.length).flatten,
             body⟩)

/-- `ParseHeaderField`: split at the first ':'; the name is everything before
it; the value runs from the first non-space after the ':' to the first '\r'
after the ':'. `List.findIdx` returns the length when no match exists, which
models `std::find` returning `end`. Caution for the no-colon case: there
`name_end` is `end()` and the source's two `std::find_if` scans run over
`[end()+1, end())`, an INVALID range starting past the end of the line — an
out-of-bounds read that leaves the parsed value indeterminate (see
`valueScanStart` and the C8 result). This model clamps that invalid range
to empty, which is faithful for the name component (computed before the
scans, and all that the redirect logic reads) but idealizes the value of a
colon-free line as empty. -/
def ParseHeaderField (header : List Char) : List Char × List Char :=
  let nameEnd := header.findIdx (fun c => c = ':')
  let name := header.take nameEnd
  let post := header.drop (nameEnd + 1)
  let valueBegin := post.findIdx (fun c => c ≠ ' ')
  let valueEnd := post.findIdx (fun c => c = '\r')
  (name, (post.drop valueBegin).take (valueEnd - valueBegin))

/-- The index at which the source's value scans begin: `name_end + 1`, where
`name_end` is the position of the first ':' (the line length when there is
none). Both `std::find_if` calls in `ParseHeaderField` traverse
`[name_end + 1, header.end())`; when the line has no ':' this range starts
at index `length + 1`, past the end of the line, so the traversal reads out
of bounds. -/
def valueScanStart (header : List Char) : Nat :=
  header.findIdx (fun c => c = ':') + 1

/-- The `while (std::getline(...) && header != "\r")` loop bound common to
both branches of `OnReadHeaders`: the header lines before the first bare
`"\r"` line (getline has already stripped each '\n'). -/
def headerBlockLines : List (List Char) → List (List Char)
  | [] => []
  | l :: ls => if l = "\r".data then [] else l :: headerBlockLines ls

/-- The redirect branch of `OnReadHeaders`: `redirect_location_` is cleared,
then each parsed header whose name is exactly "Location" overwrites it. -/
def redirectTarget (lines : List (List Char)) : List Char :=
  (headerBlockLines lines).foldl
    (fun acc l =>
      let p := ParseHeaderField l
      if p.1 = "Location".data then p.2 else acc)
    []

/-- Specification-side helper: the values of the headers named exactly
"Location" in the header block, in order. -/
def locationValues (lines : List (List Char)) : List (List Char) :=
  (headerBlockLines lines).filterMap
    (fun l =>
      let p := ParseHeaderField l
      if p.1 = "Location".data then some p.2 else none)

/-- Whitespace for `istream` formatted extraction (`std::isspace`, C locale). -/
def isSpaceChar (c : Char) : Bool :=
  c = ' ' || c = '\t' || c = '\n' || c = '\x0b' || c = '\x0c' || c = '\r'

/-- Model of `response_stream >> status_code_` (unsigned int extraction) on
the rest of the status line: skip whitespace, optional sign, then at least
one digit (failure otherwise). A digit string whose value does not fit the
32-bit unsigned target sets failbit (extraction failure, the
`InvalidResponse` path); a '-' sign on an in-range magnitude stores the
negated value modulo 2^32. Returns the value and the unconsumed rest. -/
def parseUIntFrom (l : List Char) : Option (Nat × List Char) :=
  let l1 := l.dropWhile isSpaceChar
  let p :=
    match l1 with
    | '-' :: r => (true, r)
    | '+' :: r => (false, r)
    | r => (false, r)
  let ds := p.2.takeWhile (fun c => c.isDigit)
  if ds.isEmpty then none
  else
    let v := ds.foldl (fun a c => a * 10 + (c.toNat - 48)) 0
    if v ≥ 2 ^ 32 then none
    else some (if p.1 then (2 ^ 32 - v) % 2 ^ 32 else v, p.2.drop ds.length)

/-- `OnReadStatusLine`'s parse of the first response line (the bytes before
the '\n' that `async_read_until "\r\n"` guarantees is present; `getline` then
always finds its delimiter, so the stream-state check reduces to the two
extractions): `>> http_version_`, `>> status_code_`, then the
`http_version_.substr(0, 5) != "HTTP/"` test. `none` is the
`SendError(NETWORK_ERR_INVALID_RESPONSE)` branch. -/
def parseStatusLine (l : List Char) : Option (List Char × Nat) :=
  let l1 := l.dropWhile isSpaceChar
  let ver := l1.takeWhile (fun c => !(isSpaceChar c))
  let l2 := l1.dropWhile (fun c => !(isSpaceChar c))
  if ver.isEmpty then none
  else
    match parseUIntFrom l2 with
    | none => none
    | some p =>
      if ver.take 5 = "HTTP/".data then some (ver, p.1) else none

/-- `sizeof(TransferBuffer)`: the 64 KiB chunk used by both body engines. -/
def TRANSFER_BUF_SIZE : Nat := 64 * 1024

/-- The copy loop of `SendBufferedBody`: read `min(64Ki, size - done)` bytes
from the stream and write them into the vmo at offset `done`, until `done`
reaches `size`. The vmo contents are the concatenation of the chunks. -/
def vmoCopyLoop (bytes : List Char) : List Char :=
  if h : bytes.length = 0 then []
  else
    let todo := min TRANSFER_BUF_SIZE bytes.length
    bytes.take todo ++ vmoCopyLoop (bytes.drop todo)
termination_by bytes.length
decreasing_by
  simp only [List.length_drop]
  have h1 : 0 < bytes.length := Nat.pos_of_ne_zero h
  have h2 : 0 < min TRANSFER_BUF_SIZE bytes.length := by
    simp only [TRANSFER_BUF_SIZE]; omega
  omega

/-- `SendBufferedBody`: with a non-empty `response_buf_`, create a vmo of
exactly that size (returning the failure status when allocation fails — the
`BufferAllocationFailed` case), copy every buffered byte into it, and set it
as the response body buffer. With an empty buffer the body is left unset.
Returns the status together with the buffer handed to `set_buffer` (if any). -/
def SendBufferedBody (vmoCreateOk : Bool) (bytes : List Char) :
    MxStatus × Option (List Char) :=
  if bytes.length > 0 then
    if ¬ vmoCreateOk then (.errNoMemory, none)
    else (.ok, some (vmoCopyLoop bytes))
  else (.ok, none)

/-- The asio error condition of the buffered-body `async_read` completion as
`OnBufferBody` distinguishes it. -/
inductive ReadErr where
  | eof
  | streamTruncated
  | other (n : Nat)
deriving DecidableEq, Repr

/-- The `err && err != asio::ssl::error::stream_truncated` test of
`OnBufferBody`. -/
def errFatal : Option ReadErr → Bool
  | none => false
  | some e => decide (e ≠ ReadErr.streamTruncated)

/-- The error kinds `SendError` is invoked with (network error codes from
`net_errors.h`, modelled symbolically). -/
inductive ErrKind where
  | nameNotResolved
  | connectionFailed
  | sslHandshakeNotCompleted
  | failed
  | invalidResponse
deriving DecidableEq, Repr

/-- A collaborator callback observed by the loader. -/
inductive Ev where
  | response
  | redirect (target : List Char)
  | error (e : ErrKind)
deriving DecidableEq, Repr

/-- `OnBufferBody`: a fatal read error (any error other than TLS
stream-truncation, including a plain end-of-file) sends
`NETWORK_ERR_FAILED`; otherwise `SendBufferedBody()` runs — its return
status is discarded by this caller — and `SendResponse` is invoked
unconditionally. Returns the emitted events and, when a response was
delivered, the body buffer it carried (`some none` = delivered with no
buffer set). -/
def OnBufferBody (err : Option ReadErr) (vmoCreateOk : Bool)
    (bytes : List Char) : List Ev × Option (Option (List Char)) :=
  if errFatal err then ([.error .failed], none)
  else
    let r := SendBufferedBody vmoCreateOk bytes
    ([.response], some r.2)

/-- The sink's reaction to one `response_body_stream_.write` attempt in
`SendStreamedBody` (with the subsequent `wait_one` outcome folded into the
would-block constructors). -/
inductive SinkR where
  | okW (written : Nat)
  | wblockOk
  | wblockFail
  | peerClosed
  | wrErr (n : Nat)
deriving DecidableEq, Repr

/-- The result of `SendStreamedBody` as its callers distinguish it
(`scriptEnd` marks an exhausted environment script, never reached in the
theorems below). -/
inductive SRes where
  | ok
  | peerClosed
  | err
  | scriptEnd
deriving DecidableEq, Repr

/-- The local `std::istream response_stream(&response_buf_)` of the body
engines: reading consumes from the front; a short read sets the fail state,
after which further reads extract nothing. -/
structure IStr where
  data : List Char
  failed : Bool
deriving DecidableEq, Repr

/-- `response_stream.read(buffer, todo)`: the freshly declared, uninitialized
`TransferBuffer` is filled with the extracted bytes; bytes beyond what the
stream still holds keep their indeterminate contents, modelled here by the
concrete stand-in '\x00'. -/
def istreamRead (st : IStr) (todo : Nat) : List Char × IStr :=
  if st.failed then (List.replicate todo '\x00', st)
  else
    let avail := st.data.take todo
    (avail ++ List.replicate (todo - avail.length) '\x00',
     ⟨st.data.drop todo, decide (avail.length < todo)⟩)

/-- The do-while loop of `SendStreamedBody`, one iteration per sink-write
attempt (the environment script supplies each attempt's outcome):
`todo = min(64Ki, size - done)`, `response_stream.read(buffer, todo)`, then
`response_body_stream_.write`. On `MX_ERR_SHOULD_WAIT` followed by a
successful `wait_one`, the `continue` re-enters the loop top — which
re-executes `response_stream.read` into a fresh buffer. On success `done`
advances by the count the sink reports and the loop ends once
`done >= size`. Returns (result, the byte blocks each successful write
delivered to the sink, final stream state, unused script). -/
def sendStreamedLoop (size : Nat) :
    List SinkR → Nat → IStr → List (List Char) →
    SRes × List (List Char) × IStr × List SinkR
  | [], _, st, acc => (.scriptEnd, acc, st, [])
  | r :: rs, done, st, acc =>
    let todo := min TRANSFER_BUF_SIZE (size - done)
    let rd := istreamRead st todo
    match r with
    | .okW w =>
      let acc' := acc ++ [rd.1.take w]
      if done + w < size then sendStreamedLoop size rs (done + w) rd.2 acc'
      else (.ok, acc', rd.2, rs)
    | .wblockOk => sendStreamedLoop size rs done rd.2 acc
    | .wblockFail => (.err, acc, rd.2, rs)
    | .peerClosed => (.peerClosed, acc, rd.2, rs)
    | .wrErr _ => (.err, acc, rd.2, rs)

/-- `SendStreamedBody`: snapshot `size = response_buf_.size()`; when positive,
run the chunk loop over a fresh istream on the buffered bytes. Returns
(result, blocks delivered to the sink, bytes left unconsumed in
`response_buf_`, unused script). -/
def SendStreamedBody (buffered : List Char) (script : List SinkR) :
    SRes × List (List Char) × List Char × List SinkR :=
  if buffered.length > 0 then
    let r := sendStreamedLoop buffered.length script 0 ⟨buffered, false⟩ []
    (r.1, r.2.1, r.2.2.1.data, r.2.2.2)
  else (.ok, [], buffered, script)

/-- One `OnWriteRequest` completion on the remaining header/body buffers:
`transferred_from_header = min(header.size, transferred)` bytes are consumed
from the header buffer and any excess from the body buffer
(`streambuf::consume` clamps at the buffer size, as `List.drop` does). -/
def onWriteStep (hbuf bbuf : List Char) (transferred : Nat) :
    List Char × List Char :=
  let fromHeader := min hbuf.length transferred
  (hbuf.drop fromHeader,
   if transferred > fromHeader then bbuf.drop (transferred - fromHeader)
   else bbuf)

/-- The `OnWriteRequest` re-offer loop over a script of per-completion
transfer counts: each completion consumes its count (header bytes first) and
re-offers the remaining non-empty buffers, whose gathered concatenation is
`remaining-header ++ remaining-body`; the bytes a completion reports
transferred are the first `n` bytes of that concatenation. Returns the final
(header, body) remainders and the transcript of bytes put on the wire. -/
def onWriteRequestRun :
    List Char → List Char → List Nat → (List Char × List Char) × List Char
  | hbuf, bbuf, [] => ((hbuf, bbuf), [])
  | hbuf, bbuf, n :: ns =>
    let sent := (hbuf ++ bbuf).take n
    let s := onWriteStep hbuf bbuf n
    let r := onWriteRequestRun s.1 s.2 ns
    (r.1, sent ++ r.2)

/-- The outcomes of the asynchronous operations of one request, as one
environment record. `statusLine = none` / `headerData = none` model the
corresponding read completing with an error; otherwise they carry the bytes
of the status line (up to its '\n') and the header lines `getline` yields.
The streamed-body phase is omitted: neither `SendStreamedBody` nor
`OnStreamBody` ever invokes a collaborator callback, so the emitted events
do not depend on it. -/
structure Env where
  useSSL : Bool
  resolveOk : Bool
  connectOk : Bool
  handshakeOk : Bool
  writeOk : Bool
  statusLine : Option (List Char)
  headerData : Option (List (List Char))
  bufferResponse : Bool
  socketCreateOk : Bool
  vmoCreateOk : Bool
  bufferReadErr : Option ReadErr
  bodyBytes : List Char
deriving Repr

/-- Modelled from the spec: the owning loader (`URLLoaderImpl`, not under
src/) surfaces the recorded `redirect_location_` to the collaborator as a
redirect notification when the 301/302 branch of `OnReadHeaders` completes
the request. -/
def redirectEvents (lines : List (List Char)) : List Ev :=
  [.redirect (redirectTarget lines)]

/-- The callbacks emitted from `OnReadStatusLine` onward: a status-line read
error is only logged (the handler's `else` branch does not call `SendError`);
an unparsable status line sends `NETWORK_ERR_INVALID_RESPONSE`; a header
read error is again only logged; then the 301/302 branch records and
surfaces the redirect, buffered mode runs `OnBufferBody`, and streamed mode
either fails `mx::socket::create` silently or delivers the response early
(the subsequent `SendStreamedBody`/`OnStreamBody` activity emits no
callbacks). -/
def postWriteEvents (sl : Option (List Char)) (hd : Option (List (List Char)))
    (buf sock vmo : Bool) (berr : Option ReadErr) (bb : List Char) :
    List Ev :=
  match sl with
  | none => []
  | some line =>
    match parseStatusLine line with
    | none => [.error .invalidResponse]
    | some p =>
      match hd with
      | none => []
      | some lines =>
        if p.2 = 301 ∨ p.2 = 302 then redirectEvents lines
        else if buf then (OnBufferBody berr vmo bb).1
        else if ¬ sock then []
        else [.response]

/-- The post-write stages on which no callback at all is emitted: status-line
read error, header read error, or streamed-mode socket-pair creation
failure. -/
def silentPostWrite (sl : Option (List Char))
    (hd : Option (List (List Char))) (buf sock : Bool) : Bool :=
  match sl with
  | none => true
  | some line =>
    match parseStatusLine line with
    | none => false
    | some p =>
      match hd with
      | none => true
      | some _ =>
        !(decide (p.2 = 301) || decide (p.2 = 302)) && !buf && !sock

/-- The collaborator callbacks one request emits, following the handler chain
`OnResolve → OnConnect → (OnHandShake) → OnWriteRequest → OnReadStatusLine →
OnReadHeaders → {redirect | OnBufferBody | streamed delivery}`. -/
def runRequest (env : Env) : List Ev :=
  if ¬ env.resolveOk then [.error .nameNotResolved]
  else if ¬ env.connectOk then [.error .connectionFailed]
  else if env.useSSL && !env.handshakeOk then [.error .sslHandshakeNotCompleted]
  else if ¬ env.writeOk then [.error .failed]
  else postWriteEvents env.statusLine env.headerData env.bufferResponse
        env.socketCreateOk env.vmoCreateOk env.bufferReadErr env.bodyBytes

/-- The environments on which the client reports no terminal outcome at all:
all stages up to the request write succeed, and then a silent post-write
stage is reached. -/
def silentOutcome (env : Env) : Bool :=
  env.resolveOk && env.connectOk && (!env.useSSL || env.handshakeOk)
    && env.writeOk
    && silentPostWrite env.statusLine env.headerData env.bufferResponse
         env.socketCreateOk

/-! Helper lemmas shared by the claim theorems. -/

theorem vmoCopyLoop_eq : ∀ bytes : List Char, vmoCopyLoop bytes = bytes := by
  have H : ∀ (n : Nat) (l : List Char), l.length ≤ n → vmoCopyLoop l = l := by
    intro n
    induction n with
    | zero =>
      intro l hl
      have hnil : l = [] := List.length_eq_zero.mp (Nat.le_zero.mp hl)
      rw [vmoCopyLoop]
      simp [hnil]
    | succ n ih =>
      intro l hl
      rw [vmoCopyLoop]
      by_cases h0 : l.length = 0
      · simp [h0, List.length_eq_zero.mp h0]
      · simp only [h0, dite_false]
        rw [ih (l.drop (min TRANSFER_BUF_SIZE l.length))]
        · exact List.take_append_drop _ l
        · have : 0 < min TRANSFER_BUF_SIZE l.length := by
            simp only [TRANSFER_BUF_SIZE]; omega
          simp only [List.length_drop]; omega
  exact fun bytes => H bytes.length bytes le_rfl

theorem getLastD_eq_getLast {α : Type} :
    ∀ (l : List α) (h : l ≠ []) (d : α), l.getLastD d = l.getLast h := by
  intro l h d
  cases l with
  | nil => exact absurd rfl h
  | cons a t => rw [List.getLast_eq_getLastD, List.getLastD_cons]

theorem foldl_if_getLastD {α β : Type} (p : β → Prop) [DecidablePred p]
    (g : β → α) :
    ∀ (ls : List β) (acc : α),
      ls.foldl (fun a b => if p b then g b else a) acc
      = (ls.filterMap (fun b => if p b then some (g b) else none)).getLastD
          acc := by
  intro ls
  induction ls with
  | nil => intro acc; rfl
  | cons b t ih =>
    intro acc
    rw [List.foldl_cons, List.filterMap_cons]
    by_cases h : p b
    · simp only [if_pos h, List.getLastD_cons]
      exact ih _
    · simp only [if_neg h]
      exact ih _

theorem redirectTarget_eq (lines : List (List Char)) :
    redirectTarget lines = (locationValues lines).getLastD [] := by
  unfold redirectTarget locationValues
  exact foldl_if_getLastD (fun l => (ParseHeaderField l).1 = "Location".data)
    (fun l => (ParseHeaderField l).2) (headerBlockLines lines) []

theorem head_ne_aux (a b : Char) (t1 t2 : List Char) (hab : a ≠ b) :
    (a :: t1) ≠ (b :: t2) := by simp [hab]

theorem colon_position (k w : List Char)
    (h : k ++ ':' :: ' ' :: w = "Accept: */*".data ++ crlf) :
    k = "Accept".data := by
  have hR : ("Accept: */*".data ++ crlf).length = 13 := by decide
  have hc := congrArg List.length h
  rw [hR] at hc
  simp only [List.length_append, List.length_cons] at hc
  have hk11 : k.length ≤ 11 := by omega
  have hget : ("Accept: */*".data ++ crlf)[k.length]? = some ':' := by
    rw [← h, List.getElem?_append_right le_rfl]
    simp
  have h6 : k.length = 6 := by
    by_contra hne
    have hd : k.length = 0 ∨ k.length = 1 ∨ k.length = 2 ∨ k.length = 3
        ∨ k.length = 4 ∨ k.length = 5 ∨ k.length = 6 ∨ k.length = 7
        ∨ k.length = 8 ∨ k.length = 9 ∨ k.length = 10 ∨ k.length = 11 := by
      omega
    rcases hd with h'|h'|h'|h'|h'|h'|h'|h'|h'|h'|h'|h' <;> rw [h'] at hget <;>
      first
        | exact absurd hget (by decide)
        | exact absurd h' hne
  have htake := congrArg (List.take k.length) h
  rw [List.take_left] at htake
  rw [h6] at htake
  have hA : ("Accept: */*".data ++ crlf).take 6 = "Accept".data := by decide
  rw [hA] at htake
  exact htake

theorem renderHeaderLine_eq_accept (k v : List Char)
    (h : renderHeaderLine (k, v) = "Accept: */*".data ++ crlf) :
    k = "Accept".data := by
  apply colon_position k (v ++ crlf)
  have he : renderHeaderLine (k, v) = k ++ ':' :: ' ' :: (v ++ crlf) := by
    unfold renderHeaderLine
    simp [List.append_assoc]
  rw [← he, h]

/-- C8 (code bug): where the parse is well defined — a line containing a
':' — the split behaves exactly as claimed: `"Name: Value\r"` parses to
name `Name` and value `Value`, leading spaces after the ':' trimmed and the
trailing carriage control trimmed. But the claim's no-colon clause is not a
property of the program: for a line with no ':' the source sets `name_end`
to `end()` and then runs both `std::find_if` scans over the invalid range
`[end()+1, end())` — an out-of-bounds read that leaves the parsed value
indeterminate rather than empty. At the failing input `"NoColonLine"` the
first-colon search returns the line length 11, so the value scan starts at
index 12, past the end of the 11-character line. -/
theorem c8_no_colon_scan_out_of_bounds :
    ParseHeaderField "Name: Value\r".data = ("Name".data, "Value".data)
    ∧ valueScanStart "NoColonLine".data = "NoColonLine".data.length + 1
    ∧ "NoColonLine".data.length < valueScanStart "NoColonLine".data := by
  refine ⟨by decide, by decide, by decide⟩

/-- C9: in the redirect branch, only headers whose name is byte-for-byte
equal to "Location" can set the redirect target: when every header of the
block parses to a name different from "Location" (for example, names cased
"location" or "LOCATION"), the target stays cleared/empty. -/
theorem c9_location_match_case_sensitive (lines : List (List Char))
    (h : ∀ l ∈ headerBlockLines lines,
        (ParseHeaderField l).1 ≠ "Location".data) :
    redirectTarget lines = [] := by
  rw [redirectTarget_eq]
  have hv : locationValues lines = [] := by
    unfold locationValues
    rw [List.filterMap_eq_nil]
    intro l hl
    simp [h l hl]
  rw [hv]
  rfl

/-- Witness for C9: a block carrying `location` and `LOCATION` headers (any
casing other than `Location`) leaves the redirect target empty. -/
theorem c9_location_match_case_sensitive_witness :
    (∀ l ∈ headerBlockLines
        ["location: http://evil\r".data, "LOCATION: http://x\r".data],
        (ParseHeaderField l).1 ≠ "Location".data)
    ∧ redirectTarget
        ["location: http://evil\r".data, "LOCATION: http://x\r".data]
      = [] :=
  ⟨by decide, c9_location_match_case_sensitive _ (by decide)⟩

/-- C10: in buffered mode a TLS stream-truncation read error is handled
exactly like the no-error case — the buffered bytes are copied into the
destination (when it can be allocated; left unset for an empty body) and
the response is delivered with no error callback — while every other read
error makes `OnBufferBody` emit the deliver-error callback instead. -/
theorem c10_stream_truncated_is_end_of_body :
    (∀ (vmoOk : Bool) (bytes : List Char),
        OnBufferBody (some .streamTruncated) vmoOk bytes
          = OnBufferBody none vmoOk bytes)
  ∧ (∀ bytes : List Char,
        OnBufferBody (some .streamTruncated) true bytes
          = ([.response], some (if bytes.length > 0 then some bytes else none)))
  ∧ (∀ e : ReadErr, e ≠ ReadErr.streamTruncated →
        ∀ (vmoOk : Bool) (bytes : List Char),
        OnBufferBody (some e) vmoOk bytes = ([.error .failed], none)) := by
  refine ⟨fun vmoOk bytes => rfl, ?_, ?_⟩
  · intro bytes
    unfold OnBufferBody errFatal SendBufferedBody
    by_cases hb : bytes.length > 0 <;> simp [hb, vmoCopyLoop_eq]
  · intro e he vmoOk bytes
    unfold OnBufferBody errFatal
    simp [he]

/-- Witness for C10 at concrete inputs: a truncated read with a two-byte
body delivers the response with exactly those bytes; an end-of-file read
error (the other-error case) delivers the error callback. -/
theorem c10_stream_truncated_is_end_of_body_witness :
    OnBufferBody (some .streamTruncated) true "ab".data
      = ([.response], some (some "ab".data))
    ∧ OnBufferBody (some .eof) true "ab".data = ([.error .failed], none) :=
  ⟨by rw [c10_stream_truncated_is_end_of_body.2.1 "ab".data]; decide,
   c10_stream_truncated_is_end_of_body.2.2 .eof (by decide) true "ab".data⟩

/-- C6: a method outside the exact, case-sensitive allow-list makes
`CreateRequest` fail immediately with `MX_ERR_INVALID_ARGS` — regardless of
every other argument, so in particular before any element reader runs and
with no I/O performed — while every allowed method passes the gate (with
well-behaved readers the call returns `MX_OK`). -/
theorem c6_method_allow_list :
    (∀ (server path method : List Char) extra readers,
        method ∉ ALLOWED_METHODS →
        CreateRequest server path method extra readers
          = (MxStatus.errInvalidArgs, none))
  ∧ (∀ method ∈ ALLOWED_METHODS, ∀ (server path : List Char) extra,
        (CreateRequest server path method extra []).1 = MxStatus.ok) := by
  constructor
  · intro server path method extra readers h
    unfold CreateRequest IsMethodAllowed
    simp [h]
  · intro method hm server path extra
    unfold CreateRequest IsMethodAllowed runReaders
    simp [hm]

/-- Witness for C6: the disallowed method "get" (wrong case) is rejected
with `MX_ERR_INVALID_ARGS`; the allowed method "GET" is accepted. -/
theorem c6_method_allow_list_witness :
    ("get".data ∉ ALLOWED_METHODS
      ∧ CreateRequest "h".data "/".data "get".data [] []
          = (MxStatus.errInvalidArgs, none))
    ∧ ("GET".data ∈ ALLOWED_METHODS
      ∧ (CreateRequest "h".data "/".data "GET".data [] []).1
          = MxStatus.ok) :=
  ⟨⟨by decide, c6_method_allow_list.1 _ _ _ _ _ (by decide)⟩,
   ⟨by decide, c6_method_allow_list.2 _ (by decide) _ _ _⟩⟩

/-- C1 (refuting evaluation): with `response_buf_` holding the two bytes
``01 02`` and a sink whose first write reports would-block (after which
`wait_one` succeeds) and whose second write succeeds, the `continue` in
`SendStreamedBody` re-executes `response_stream.read` into a fresh
(uninitialized, modelled as zero-filled) buffer, so the retried write
delivers stale buffer contents, not the saved chunk: the sink receives
``00 00`` and the bytes ``01 02`` read from the socket are dropped, while
the function still returns `MX_OK`. This contradicts the claim (and the
code's own comment "retry now that the socket is ready") that the exact
same chunk is retried and sink bytes equal socket bytes. -/
theorem c1_would_block_drops_chunk :
    SendStreamedBody ['\x01', '\x02'] [.wblockOk, .okW 2]
      = (.ok, [['\x00', '\x00']], [], [])
    ∧ (SendStreamedBody ['\x01', '\x02'] [.wblockOk, .okW 2]).2.1.flatten
        ≠ ['\x01', '\x02'] := by
  constructor
  · decide
  · decide

/-- C3 (refuting evaluation): in buffered mode, when the body read ends with
TLS stream-truncation (the normal end-of-body for TLS) and `mx::vmo::create`
fails on a one-byte body, `OnBufferBody` discards `SendBufferedBody`'s
failure status and still delivers the response — with no body buffer set —
and no error callback ever fires, contradicting the claim that no delivery
occurs and the allocation failure propagates to the error channel. -/
theorem c3_alloc_failure_still_delivers :
    OnBufferBody (some .streamTruncated) false ['\x01']
      = ([.response], some none)
    ∧ Ev.error .failed ∉ (OnBufferBody (some .streamTruncated) false ['\x01']).1 := by
  constructor
  · decide
  · decide

/-- C5: after a write completion of `n` bytes the two buffers together
advance by exactly `n` (their remaining concatenation is the old one with
the first `n` bytes dropped), body bytes are consumed only once the header
buffer is exhausted (a transfer within the header leaves the body
untouched), and the re-offer loop, once the reported transfers sum to the
total, ends with both buffers empty having put exactly
`header ++ body` on the wire — header bytes before any body byte. -/
theorem c5_partial_write_accounting :
    (∀ (hbuf bbuf : List Char) (n : Nat),
        (onWriteStep hbuf bbuf n).1 ++ (onWriteStep hbuf bbuf n).2
          = (hbuf ++ bbuf).drop n)
    ∧ (∀ (hbuf bbuf : List Char) (n : Nat), n ≤ hbuf.length →
        (onWriteStep hbuf bbuf n).2 = bbuf)
    ∧ (∀ (hbuf bbuf : List Char) (ns : List Nat),
        ns.sum = hbuf.length + bbuf.length →
        (onWriteRequestRun hbuf bbuf ns).1 = ([], [])
        ∧ (onWriteRequestRun hbuf bbuf ns).2 = hbuf ++ bbuf) := by
  have ha : ∀ (hb bb : List Char) (n : Nat),
      (onWriteStep hb bb n).1 ++ (onWriteStep hb bb n).2
        = (hb ++ bb).drop n := by
    intro hb bb n
    unfold onWriteStep
    rcases Nat.le_total n hb.length with h | h
    · have hmin : min hb.length n = n := by omega
      simp only [hmin]
      rw [if_neg (by omega), List.drop_append_of_le_length h]
    · have hmin : min hb.length n = hb.length := by omega
      simp only [hmin]
      by_cases he : n > hb.length
      · rw [if_pos he, List.drop_length]
        have hr : ∀ k, (hb ++ bb).drop (hb.length + k) = bb.drop k := by
          intro k
          rw [← List.drop_drop, List.drop_left]
        have h2 : n = hb.length + (n - hb.length) := by omega
        calc [] ++ bb.drop (n - hb.length)
            = bb.drop (n - hb.length) := by simp
          _ = (hb ++ bb).drop (hb.length + (n - hb.length)) := (hr _).symm
          _ = (hb ++ bb).drop n := by rw [← h2]
      · have h3 : n = hb.length := by omega
        rw [if_neg he, h3, List.drop_length, List.drop_left]
        simp
  have hb2 : ∀ (hb bb : List Char) (n : Nat), n ≤ hb.length →
      (onWriteStep hb bb n).2 = bb := by
    intro hb bb n h
    unfold onWriteStep
    have hmin : min hb.length n = n := by omega
    simp only [hmin]
    rw [if_neg (by omega)]
  have hc : ∀ (ns : List Nat) (hb bb : List Char),
      ns.sum = hb.length + bb.length →
      (onWriteRequestRun hb bb ns).1 = ([], [])
      ∧ (onWriteRequestRun hb bb ns).2 = hb ++ bb := by
    intro ns
    induction ns with
    | nil =>
      intro hb bb h
      simp only [List.sum_nil] at h
      have h1 : hb = [] := List.length_eq_zero.mp (by omega)
      have h2 : bb = [] := List.length_eq_zero.mp (by omega)
      subst h1; subst h2
      exact ⟨rfl, rfl⟩
    | cons n ns ih =>
      intro hb bb h
      simp only [List.sum_cons] at h
      have hstep := ha hb bb n
      have hlen : (onWriteStep hb bb n).1.length
          + (onWriteStep hb bb n).2.length
          = hb.length + bb.length - n := by
        have hcg := congrArg List.length hstep
        simp only [List.length_append, List.length_drop] at hcg
        omega
      have hsum : ns.sum = (onWriteStep hb bb n).1.length
          + (onWriteStep hb bb n).2.length := by omega
      obtain ⟨ih1, ih2⟩ := ih _ _ hsum
      refine ⟨ih1, ?_⟩
      show (hb ++ bb).take n ++ (onWriteRequestRun _ _ ns).2 = hb ++ bb
      rw [ih2, hstep, List.take_append_drop]
  exact ⟨ha, hb2, fun hb bb ns h => hc ns hb bb h⟩

/-- Witness for C5 at concrete buffers: header "AB", body "CD", a 3-byte
transfer advances across the boundary, a 1-byte transfer leaves the body
untouched, and the run with transfers 1 then 3 drains both buffers and puts
exactly "ABCD" on the wire. -/
theorem c5_partial_write_accounting_witness :
    (onWriteStep "AB".data "CD".data 3).1 ++ (onWriteStep "AB".data "CD".data 3).2
        = ("AB".data ++ "CD".data).drop 3
    ∧ (onWriteStep "AB".data "CD".data 1).2 = "CD".data
    ∧ (onWriteRequestRun "AB".data "CD".data [1, 3]).1 = ([], [])
    ∧ (onWriteRequestRun "AB".data "CD".data [1, 3]).2
        = "AB".data ++ "CD".data :=
  ⟨c5_partial_write_accounting.1 "AB".data "CD".data 3,
   c5_partial_write_accounting.2.1 "AB".data "CD".data 1 (by decide),
   (c5_partial_write_accounting.2.2 "AB".data "CD".data [1, 3] (by decide)).1,
   (c5_partial_write_accounting.2.2 "AB".data "CD".data [1, 3] (by decide)).2⟩

/-- Every `OnBufferBody` completion emits exactly one callback. -/
theorem OnBufferBody_emits_one (e : Option ReadErr) (v : Bool)
    (b : List Char) : ((OnBufferBody e v b).1).length = 1 := by
  unfold OnBufferBody
  split <;> rfl

/-- The post-write stage emits at most one callback, and emits none exactly
on the silent stages. -/
theorem postWriteEvents_count (sl : Option (List Char))
    (hd : Option (List (List Char))) (buf sock vmo : Bool)
    (berr : Option ReadErr) (bb : List Char) :
    (postWriteEvents sl hd buf sock vmo berr bb).length ≤ 1
    ∧ ((postWriteEvents sl hd buf sock vmo berr bb).length = 0
        ↔ silentPostWrite sl hd buf sock = true) := by
  cases sl with
  | none => simp [postWriteEvents, silentPostWrite]
  | some line =>
    cases hps : parseStatusLine line with
    | none => simp [postWriteEvents, silentPostWrite, hps]
    | some p =>
      cases hd with
      | none => simp [postWriteEvents, silentPostWrite, hps]
      | some lines =>
        by_cases hc : p.2 = 301 ∨ p.2 = 302
        · rcases hc with h | h <;>
            simp [postWriteEvents, silentPostWrite, hps, redirectEvents, h]
        · rw [not_or] at hc
          obtain ⟨hc1, hc2⟩ := hc
          have hcor : ¬ (p.2 = 301 ∨ p.2 = 302) := by
            rw [not_or]; exact ⟨hc1, hc2⟩
          cases buf with
          | true =>
            refine ⟨?_, ?_⟩
            · simp [postWriteEvents, hps, hcor, OnBufferBody_emits_one]
            · simp [postWriteEvents, silentPostWrite, hps, hcor, hc1, hc2,
                OnBufferBody_emits_one]
          | false =>
            cases sock with
            | true =>
              simp [postWriteEvents, silentPostWrite, hps, hcor, hc1, hc2]
            | false =>
              constructor
              · simp [postWriteEvents, hps, hcor]
              · simp [postWriteEvents, silentPostWrite, hps, hcor, hc1, hc2]

/-- C2 (amended): every request emits at most one terminal outcome, and it
emits exactly one except on the silent paths — a transport error while
reading the status line or the headers, or a streamed-mode socket-pair
creation failure, where it emits none. -/
theorem c2_one_terminal_outcome (env : Env) :
    (runRequest env).length ≤ 1
    ∧ ((runRequest env).length = 0 ↔ silentOutcome env = true) := by
  obtain ⟨ssl, res, con, hs, wr, sl, hd, buf, sock, vmo, berr, bb⟩ := env
  cases res with
  | false => simp [runRequest, silentOutcome]
  | true =>
    cases con with
    | false => simp [runRequest, silentOutcome]
    | true =>
      cases wr with
      | false =>
        cases ssl <;> cases hs <;> simp [runRequest, silentOutcome]
      | true =>
        have hpost := postWriteEvents_count sl hd buf sock vmo berr bb
        cases ssl with
        | false =>
          simpa [runRequest, silentOutcome] using hpost
        | true =>
          cases hs with
          | false => simp [runRequest, silentOutcome]
          | true => simpa [runRequest, silentOutcome] using hpost

/-- C2 (refuting evaluation): a request whose status-line read fails at the
transport level — all earlier stages having succeeded — emits no terminal
outcome at all (`OnReadStatusLine` only logs the error), so the claimed
"exactly one, never zero" is false on this input. -/
theorem c2_zero_outcomes_on_status_read_error :
    runRequest ⟨false, true, true, true, true, none, some [], true, true,
        true, none, []⟩ = []
    ∧ (runRequest ⟨false, true, true, true, true, none, some [], true, true,
        true, none, []⟩).length ≠ 1 := by
  constructor
  · decide
  · decide

/-- C4: on a 301 or 302 response whose header block contains at least one
header named `Location`, the request's only emitted outcome is the redirect
notification, whose recorded target is the value of the last `Location`
occurrence of the block (last occurrence wins when duplicated); in
particular no response-delivery callback fires for that request. -/
theorem c4_redirect_takes_last_location (env : Env) (line ver : List Char)
    (code : Nat) (lines : List (List Char))
    (hres : env.resolveOk = true) (hcon : env.connectOk = true)
    (hssl : env.useSSL = true → env.handshakeOk = true)
    (hwr : env.writeOk = true)
    (hsl : env.statusLine = some line)
    (hp : parseStatusLine line = some (ver, code))
    (hcode : code = 301 ∨ code = 302)
    (hhd : env.headerData = some lines)
    (hloc : locationValues lines ≠ []) :
    runRequest env = [Ev.redirect ((locationValues lines).getLast hloc)]
    ∧ Ev.response ∉ runRequest env := by
  have hrun : runRequest env = [Ev.redirect (redirectTarget lines)] := by
    unfold runRequest postWriteEvents redirectEvents
    cases hS : env.useSSL with
    | false =>
      rcases hcode with h | h <;>
        simp [hres, hcon, hwr, hS, hsl, hp, hhd, h]
    | true =>
      rcases hcode with h | h <;>
        simp [hres, hcon, hwr, hS, hssl hS, hsl, hp, hhd, h]
  rw [hrun, redirectTarget_eq, getLastD_eq_getLast _ hloc]
  exact ⟨rfl, by simp⟩

/-- Witness for C4: a 302 response carrying two `Location` headers records
the second one and emits only the redirect notification. -/
theorem c4_redirect_takes_last_location_witness :
    runRequest ⟨false, true, true, true, true,
        some "HTTP/1.1 302 Found\r".data,
        some ["Location: http://a\r".data, "Location: http://b\r".data],
        false, true, true, none, []⟩
      = [Ev.redirect "http://b".data] := by
  have h := (c4_redirect_takes_last_location
      ⟨false, true, true, true, true,
        some "HTTP/1.1 302 Found\r".data,
        some ["Location: http://a\r".data, "Location: http://b\r".data],
        false, true, true, none, []⟩
      "HTTP/1.1 302 Found\r".data "HTTP/1.1".data 302
      ["Location: http://a\r".data, "Location: http://b\r".data]
      rfl rfl (fun _ => rfl) rfl rfl (by decide) (Or.inr rfl) rfl
      (by decide)).1
  rw [h]
  decide

/-- C7: in the serialized request-header block (reached only for an allowed
method — `CreateRequest` checks the method before serializing), if no
extra-header key equals "accept" case-insensitively then the block contains
exactly one `Accept: */*` line (the synthesized one); if such a key is
supplied, no Accept line is synthesized — the block contains exactly as many
`Accept: */*` lines as the caller's own headers contribute. -/
theorem c7_accept_synthesized_once (server path method : List Char)
    (extra : List (List Char × List Char)) (bodyLen : Nat)
    (hm : method ∈ ALLOWED_METHODS) :
    (hasAcceptHeader extra = false →
        (requestHeaderLines server path method extra bodyLen).count
            ("Accept: */*".data ++ crlf) = 1)
    ∧ (hasAcceptHeader extra = true →
        (requestHeaderLines server path method extra bodyLen).count
            ("Accept: */*".data ++ crlf)
          = (extra.map renderHeaderLine).count
              ("Accept: */*".data ++ crlf)) := by
  have hreqg : ∀ t u : List Char, method ++ t ≠ 'A' :: u := by
    fin_cases hm <;> intro t u
    · exact head_ne_aux 'G' 'A' _ _ (by decide)
    · exact head_ne_aux 'H' 'A' _ _ (by decide)
    · exact head_ne_aux 'P' 'A' _ _ (by decide)
    · exact head_ne_aux 'P' 'A' _ _ (by decide)
    · exact head_ne_aux 'D' 'A' _ _ (by decide)
    · exact head_ne_aux 'T' 'A' _ _ (by decide)
    · exact head_ne_aux 'C' 'A' _ _ (by decide)
    · exact head_ne_aux 'P' 'A' _ _ (by decide)
  have hcrlfn : crlf
      ≠ 'A' :: 'c' :: 'c' :: 'e' :: 'p' :: 't' :: ':' :: ' ' :: '*' :: '/'
          :: '*' :: crlf := by decide
  have hcln : ∀ n : Nat, contentLengthLine n
      ≠ 'A' :: 'c' :: 'c' :: 'e' :: 'p' :: 't' :: ':' :: ' ' :: '*' :: '/'
          :: '*' :: crlf :=
    fun n => head_ne_aux 'C' 'A' _ _ (by decide)
  constructor
  · intro hacc
    have hextras : (extra.map renderHeaderLine).count
        ('A' :: 'c' :: 'c' :: 'e' :: 'p' :: 't' :: ':' :: ' ' :: '*' :: '/'
          :: '*' :: crlf) = 0 := by
      rw [List.count_eq_zero]
      intro hmem
      obtain ⟨kv, hkv, heq⟩ := List.mem_map.mp hmem
      have hk : kv.1 = "Accept".data :=
        renderHeaderLine_eq_accept kv.1 kv.2 heq
      have hci : eqCI kv.1 "accept".data = true := by rw [hk]; decide
      have hha : hasAcceptHeader extra = true := by
        unfold hasAcceptHeader
        rw [List.any_eq_true]
        exact ⟨kv, hkv, hci⟩
      rw [hacc] at hha
      exact Bool.false_ne_true hha
    unfold requestHeaderLines
    by_cases hbl : bodyLen > 0 <;>
      simp [hacc, hbl, List.count_append, List.count_cons, beq_iff_eq,
            hreqg, hcrlfn, hcln, hextras]
  · intro hacc
    unfold requestHeaderLines
    by_cases hbl : bodyLen > 0 <;>
      simp [hacc, hbl, List.count_append, List.count_cons, beq_iff_eq,
            hreqg, hcrlfn, hcln]

/-- Witness for C7: with no extra headers the GET request block contains
exactly one `Accept: */*` line; with a caller-supplied `Accept` header it
contains exactly the caller's count (here zero, since the caller's Accept
value differs). -/
theorem c7_accept_synthesized_once_witness :
    "GET".data ∈ ALLOWED_METHODS
    ∧ (requestHeaderLines "h".data "/".data "GET".data [] 0).count
        ("Accept: */*".data ++ crlf) = 1
    ∧ (requestHeaderLines "h".data "/".data "GET".data
          [("Accept".data, "text/html".data)] 0).count
        ("Accept: */*".data ++ crlf)
      = ([("Accept".data, "text/html".data)].map renderHeaderLine).count
          ("Accept: */*".data ++ crlf) :=
  ⟨by decide,
   (c7_accept_synthesized_once "h".data "/".data "GET".data [] 0
      (by decide)).1 (by decide),
   (c7_accept_synthesized_once "h".data "/".data "GET".data
      [("Accept".data, "text/html".data)] 0 (by decide)).2 (by decide)⟩

end HttpClient
